import Mathlib

/-!
Verification of the Vidium media tool's core (converter.py, downloader.py,
gui.py) against its natural-language specification.  The Python source is
shallowly embedded: pure fragments become Lean functions over exact
rationals (Python floats are modelled as exact arithmetic), `int(x)`
becomes truncation toward zero, optional values become `Option`, and the
stateful progress hooks become explicit state-passing step functions.
-/

/-- Python `int(x)` applied to a float: truncation toward zero. -/
def pyInt (q : ℚ) : ℤ :=
  if q < 0 then -(Int.floor (-q)) else Int.floor q

theorem pyInt_of_nonneg (q : ℚ) (h : 0 ≤ q) : pyInt q = Int.floor q := by
  unfold pyInt
  rw [if_neg (not_lt.mpr h)]

theorem floor_min_const (c : ℤ) (x : ℚ) : Int.floor (min (c : ℚ) x) = min c (Int.floor x) := by
  rcases le_total x (c : ℚ) with h | h
  · rw [min_eq_right h, min_eq_right]
    exact_mod_cast Int.floor_le_floor h |>.trans_eq (Int.floor_intCast c)
  · rw [min_eq_left h, Int.floor_intCast, min_eq_left]
    have := Int.floor_le_floor h
    rwa [Int.floor_intCast] at this

/-- Python digit-string parsing: the numeric value of a nonempty string of
decimal digits (`float("050") = 50.0`, `int("42") = 42`); `none` when the
string contains a non-digit (Python would raise). -/
def parseNatDigits (s : String) : Option ℕ :=
  if s.isEmpty then none
  else s.toList.foldl
    (fun acc c => match acc with
      | none => none
      | some n => if c.isDigit then some (n * 10 + (c.toNat - 48)) else none)
    (some 0)

/-! ## Bitrate planning (gui.py, ConversionWorker.do_conversion, lines 934-941 and 1002-1006)

`target_bitrate = int(input_bitrate * self.quality / 100)`,
`target_bitrate_k = target_bitrate // 1000`, and the GPU rate-control args
append `"-b:v" f"{target_bitrate_k}k" "-maxrate" f"{target_bitrate_k}k"
"-bufsize" f"{target_bitrate_k * 2}k"`. -/

/-- The bitrate ceiling in bits/sec: `int(input_bitrate * self.quality / 100)`
(Python float division then truncation). -/
def target_bitrate (inputBitrate quality : ℕ) : ℤ :=
  pyInt ((inputBitrate : ℚ) * quality / 100)

/-- The ceiling in kbit units: `target_bitrate // 1000` (Python floor division). -/
def target_bitrate_k (inputBitrate quality : ℕ) : ℤ :=
  Int.fdiv (target_bitrate inputBitrate quality) 1000

/-- The bufsize passed to ffmpeg, converted from the `f"{target_bitrate_k * 2}k"`
argument back to bits/sec. -/
def bufsize_bits (inputBitrate quality : ℕ) : ℤ :=
  target_bitrate_k inputBitrate quality * 2 * 1000

/-! ## Trim time handling (downloader.py, TrimWorker, lines 321-338 and 454-477)

`_time_to_seconds` splits on `":"` and converts each field with `float`;
we model the function on the already-split field list (fields are digit
strings in the `FixedTimeLineEdit` format `"00:00:00:00"`). -/

/-- TrimWorker._time_to_seconds on the `":"`-split field list: 3 fields give
`h*3600 + m*60 + s`, 4 fields additionally add `millis / 1000.0`, any other
arity (or an unparsable field) gives `None`. -/
def time_to_seconds (parts : List String) : Option ℚ :=
  match parts with
  | [h, m, s] =>
    match parseNatDigits h, parseNatDigits m, parseNatDigits s with
    | some hv, some mv, some sv => some ((hv : ℚ) * 3600 + mv * 60 + sv)
    | _, _, _ => none
  | [h, m, s, ms] =>
    match parseNatDigits h, parseNatDigits m, parseNatDigits s, parseNatDigits ms with
    | some hv, some mv, some sv, some msv =>
      some ((hv : ℚ) * 3600 + mv * 60 + sv + (msv : ℚ) / 1000)
    | _, _, _, _ => none
  | _ => none

/-- TrimWorker._format_time_for_ffmpeg on the split field list: a 4-field
time becomes `"HH:MM:SS." ++ fourth`, anything else is returned unchanged
(re-joined). -/
def format_time_for_ffmpeg (parts : List String) : String :=
  if parts.length = 4 then
    String.intercalate ":" (parts.take 3) ++ "." ++ (parts.getD 3 "")
  else
    String.intercalate ":" parts

/-- Modelled from the spec: the number of seconds denoted by an ffmpeg
`-ss HH:MM:SS.frac` seek argument (the external encoder boundary of
section 6 of the spec), read as standard decimal time notation: the part
after the dot is a decimal fraction of a second, so `frac` with `d` digits
denotes `frac / 10^d` seconds. -/
def ffmpeg_seek_seconds (parts : List String) : Option ℚ :=
  match parts with
  | [h, m, s, f] =>
    match parseNatDigits h, parseNatDigits m, parseNatDigits s, parseNatDigits f with
    | some hv, some mv, some sv, some fv =>
      some ((hv : ℚ) * 3600 + mv * 60 + sv + (fv : ℚ) / (10 : ℚ) ^ f.length)
    | _, _, _, _ => none
  | _ => none

/-- Outcome of TrimWorker.run up to the point where the ffmpeg trim process
would be spawned (downloader.py lines 321-338): every error constructor is
emitted via `self.error.emit(...)` followed by `return`, before
`subprocess.Popen` is reached. -/
inductive TrimOutcome where
  | invalidTimeFormat
  | startNotBeforeEnd
  | noDuration
  | endOutOfBounds
  | spawn (startSeconds trimDuration : ℚ)
deriving DecidableEq, Repr

/-- The validation part of TrimWorker.run: parse both times, reject
`start >= end`, probe the duration (supplied here by the caller, as in the
spec's TrimPlanner contract), reject an unknown duration, reject
`end > duration`; only then is the ffmpeg command built and spawned. -/
def trim_validate (startParts endParts : List String) (probeDuration : Option ℚ) :
    TrimOutcome :=
  match time_to_seconds startParts, time_to_seconds endParts with
  | none, _ => TrimOutcome.invalidTimeFormat
  | _, none => TrimOutcome.invalidTimeFormat
  | some s, some e =>
    if s ≥ e then TrimOutcome.startNotBeforeEnd
    else
      match probeDuration with
      | none => TrimOutcome.noDuration
      | some d =>
        if e > d then TrimOutcome.endOutOfBounds
        else TrimOutcome.spawn s (e - s)

/-! ## Encode-task progress (converter.py, convert_file, lines 159-282)

`convert_file` probes `total_duration` once, then two reader loops parse
progress tokens: `_read_stderr` searches each line for
`time=HH:MM:SS[.frac]` and `_read_stdout` matches `out_time_ms=`/
`out_time_us=` (integer microseconds), `out_time=HH:MM:SS[.frac]` and
`progress=WORD` at the start of the line.  Regex match groups are embedded
structurally; the optional fractional group is carried as its numeric
value together with its digit count, so that `float("0." + frac)` becomes
`value / 10 ^ digits`. -/

/-- An `HH:MM:SS[.frac]` match of the `time=`/`out_time=` regexes. -/
structure TimeToken where
  hh : ℕ
  mm : ℕ
  ss : ℕ
  frac : Option (ℕ × ℕ)
deriving DecidableEq, Repr

/-- Elapsed seconds recovered from a time token:
`int(hh)*3600 + int(mm)*60 + int(ss)` plus `float("0." + frac)`. -/
def TimeToken.seconds (t : TimeToken) : ℚ :=
  (t.hh : ℚ) * 3600 + (t.mm : ℚ) * 60 + (t.ss : ℚ) +
    (match t.frac with
     | none => 0
     | some (v, d) => (v : ℚ) / (10 : ℚ) ^ d)

/-- What `_read_stdout` can extract from one line of the `-progress pipe:1`
stream: an `out_time_ms=`/`out_time_us=` integer, an `out_time=` token, a
`progress=WORD` key, or none of these. -/
inductive StdoutLine where
  | outTimeMicros (micros : ℕ)
  | outTime (t : TimeToken)
  | progressKey (w : String)
  | plain
deriving DecidableEq, Repr

/-- Percent emitted by `_read_stderr` for one line (lines 161-190): nothing
unless `total_duration` is truthy and the line has a `time=` match;
otherwise `max(0, min(99, int(secs / total_duration * 100)))`. -/
def stderr_pct (totalDuration : Option ℚ) (tok : Option TimeToken) : Option ℤ :=
  match totalDuration, tok with
  | some dur, some t =>
    if dur = 0 then none
    else some (max 0 (min 99 (pyInt (t.seconds / dur * 100))))
  | _, _ => none

/-- Percent emitted by `_read_stdout` for one line (lines 192-236): nothing
unless `total_duration` is truthy; `out_time_ms=`/`out_time_us=` and
`out_time=` lines produce `int(min(99.0, max(0.0, secs / dur * 100.0)))`,
and a `progress=end` line produces 100. -/
def stdout_pct (totalDuration : Option ℚ) (l : StdoutLine) : Option ℤ :=
  match totalDuration with
  | none => none
  | some dur =>
    if dur = 0 then none
    else
      match l with
      | StdoutLine.outTimeMicros u =>
        some (pyInt (min 99 (max 0 ((u : ℚ) / 1000000 / dur * 100))))
      | StdoutLine.outTime t =>
        some (pyInt (min 99 (max 0 (t.seconds / dur * 100))))
      | StdoutLine.progressKey w => if w = "end" then some 100 else none
      | StdoutLine.plain => none

/-- One output line observed while the ffmpeg process runs, tagged by the
stream it came from. -/
inductive ConvLineEvent where
  | fromStderr (tok : Option TimeToken)
  | fromStdout (l : StdoutLine)
deriving DecidableEq, Repr

/-- Percent emitted for one line, whichever reader consumed it. -/
def line_pct (totalDuration : Option ℚ) : ConvLineEvent → Option ℤ
  | ConvLineEvent.fromStderr tok => stderr_pct totalDuration tok
  | ConvLineEvent.fromStdout l => stdout_pct totalDuration l

/-- The elapsed-time quantity a line carries, when it carries one. -/
def ConvLineEvent.elapsedSeconds : ConvLineEvent → Option ℚ
  | ConvLineEvent.fromStderr (some t) => some t.seconds
  | ConvLineEvent.fromStderr none => none
  | ConvLineEvent.fromStdout (StdoutLine.outTimeMicros u) => some ((u : ℚ) / 1000000)
  | ConvLineEvent.fromStdout (StdoutLine.outTime t) => some t.seconds
  | ConvLineEvent.fromStdout _ => none

/-- All percents emitted while the process runs, in order. -/
def running_emits (totalDuration : Option ℚ) (lines : List ConvLineEvent) : List ℤ :=
  lines.filterMap (line_pct totalDuration)

/-- The full emission sequence of one `convert_file` call (lines 238-282):
the running emissions, then — only when the process exited with code 0 —
the forced final 100 (on a nonzero exit the function raises instead). -/
def convert_file_emits (totalDuration : Option ℚ) (lines : List ConvLineEvent)
    (exitCode : ℤ) : List ℤ :=
  running_emits totalDuration lines ++ (if exitCode = 0 then [100] else [])

/-- The spec's formula for a running percent:
`clamp(elapsed/totalDuration*100, 0, 99)`, emitted as the Python-truncated
integer. -/
def clamp_pct_spec (elapsed dur : ℚ) : ℤ :=
  max 0 (min 99 (pyInt (elapsed / dur * 100)))

/-! ## Cancellation (converter.py convert_file lines 253-269; gui.py ConversionWorker.run lines 1056-1073)

The race `asyncio.wait({readers, stopper, process.wait()}, FIRST_COMPLETED)`
is embedded by the boolean `stopFired`: whether the stop event completed
the race.  In that branch the source kills the process, awaits it, cancels
the pending reader tasks, removes the output file if it exists, and raises
`asyncio.CancelledError`; otherwise the readers are drained and a nonzero
return code raises `RuntimeError`. -/

/-- How one `convert_file` call can end. -/
inductive ConvertRunResult where
  | cancelled
  | completed (exitCode : ℤ)
deriving DecidableEq, Repr

/-- The tail of `convert_file` with a stop event: the result, whether the
external process is still alive afterwards, and whether the output file
exists afterwards. -/
def convert_file_finish (stopFired : Bool) (exitCode : ℤ) (outputExists : Bool) :
    ConvertRunResult × Bool × Bool :=
  if stopFired then
    (ConvertRunResult.cancelled, false, if outputExists then false else outputExists)
  else
    (ConvertRunResult.completed exitCode, false, outputExists)

/-- Terminal task states of the spec's state machine. -/
inductive TaskTerminal where
  | Succeeded
  | Failed
  | Cancelled
deriving DecidableEq, Repr

/-- gui.ConversionWorker.run: `asyncio.CancelledError` is caught and
reported as "Conversion stopped by user."; the `RuntimeError` raised for a
nonzero return code is caught as a generic error (task Failed); a normal
return emits conversionFinished (task Succeeded). -/
def worker_terminal_status : ConvertRunResult → TaskTerminal
  | ConvertRunResult.cancelled => TaskTerminal.Cancelled
  | ConvertRunResult.completed rc =>
    if rc = 0 then TaskTerminal.Succeeded else TaskTerminal.Failed

/-! ## Download progress hook (downloader.py, DownloadWorker, lines 25-273)

The yt-dlp progress dict `d` is embedded as a record of the fields the
hook reads.  Or-chains over alternative dict keys (`d.get('filename') or
d.get('tmpfilename')`, the fragment-index/count key families) are carried
as their merged result; `_percent_str` is carried as the numeric value
Python's `float` would parse out of it (or `none` when parsing fails); an
already-`len`-converted fragment count is carried as a number. -/

/-- One yt-dlp progress-hook event, restricted to the fields the hook reads. -/
structure HookInput where
  status : Option String
  filename : Option String
  requestedFormatsCount : Option ℕ
  totalBytes : Option ℚ
  downloadedBytes : Option ℚ
  fragIndex : Option ℤ
  fragCount : Option ℤ
  percentStrValue : Option ℚ
  elapsed : Option ℚ
  eta : Option ℚ
deriving Repr

/-- The mutable bookkeeping of DownloadWorker that download_hook touches. -/
structure DLState where
  lastProgress : ℤ
  currentFilename : Option String
  partsSeen : List String
  partsDone : List String
  totalPartsEst : ℕ
  observedProgress : Bool
deriving DecidableEq, Repr

/-- Per-part percentage chain of the 'downloading' branch (lines 157-195):
byte counts, then fragment index/count, then the formatted percent string,
then the elapsed/eta estimate; `none` when every fallback fails. -/
def per_part_pct (d : HookInput) : Option ℤ :=
  let fromPctStr : Option ℤ :=
    match d.percentStrValue with
    | some v => some (max 0 (min 100 (pyInt v)))
    | none =>
      match d.elapsed, d.eta with
      | some el, some et =>
        if 0 < el + et then some (pyInt (max 0 (min 100 (el / (el + et) * 100))))
        else none
      | _, _ => none
  let fromFrags : Option ℤ :=
    match d.fragIndex, d.fragCount with
    | some fi, some fc =>
      if fc ≠ 0 then
        if 0 < fc then some (max 0 (min 100 (pyInt ((fi : ℚ) / (fc : ℚ) * 100))))
        else fromPctStr
      else fromPctStr
    | _, _ => fromPctStr
  match d.totalBytes with
  | some total =>
    if 0 < total then
      match d.downloadedBytes with
      | some dl => some (max 0 (min 100 (pyInt (dl / total * 100))))
      | none => fromFrags
    else fromFrags
  | none => fromFrags

/-- The uniform emission formula shared by the hook's three emitting
branches: `int(max(0.0, min(99.0, overall * 100.0)))`. -/
def clamp99_percent (overall : ℚ) : ℤ :=
  pyInt (max 0 (min 99 (overall * 100)))

/-- Lines 136-154: capture the previous filename and part estimate, grow
the estimate from `info_dict['requested_formats']`, track the current
filename and the set of seen parts.  Returns the updated state together
with `part_changed` and `parts_est_increased`. -/
def hook_bookkeep (s : DLState) (d : HookInput) : DLState × Bool × Bool :=
  let est1 :=
    match d.requestedFormatsCount with
    | some n => if 1 < n then max s.totalPartsEst n else s.totalPartsEst
    | none => s.totalPartsEst
  let next :=
    match d.filename with
    | some f =>
      if some f = s.currentFilename then (s.currentFilename, s.partsSeen, est1)
      else if f ∈ s.partsSeen then (some f, s.partsSeen, est1)
      else (some f, s.partsSeen ++ [f], max est1 (s.partsSeen.length + 1))
    | none => (s.currentFilename, s.partsSeen, est1)
  let partChanged : Bool :=
    match d.filename, s.currentFilename with
    | some f, some pf => decide (f ≠ pf)
    | _, _ => false
  let estIncreased : Bool := decide (s.totalPartsEst < next.2.2)
  ({ s with currentFilename := next.1, partsSeen := next.2.1, totalPartsEst := next.2.2 },
   partChanged, estIncreased)

/-- End of a full part (lines 250-270): mark the filename complete, grow
the estimate, and report `completed / effectiveTotal`. -/
def hook_finished_part (s1 : DLState) (d : HookInput) : DLState × Option ℚ × Bool :=
  let done2 :=
    match d.filename with
    | some f => if f ∈ s1.partsDone then s1.partsDone else s1.partsDone ++ [f]
    | none => s1.partsDone
  let est3 :=
    match d.filename with
    | some _ => max s1.totalPartsEst (max s1.partsSeen.length done2.length)
    | none => s1.totalPartsEst
  let completedParts := done2.length
  let effectiveTotalParts := max est3 (if 0 < completedParts then completedParts else 1)
  ({ s1 with partsDone := done2, totalPartsEst := est3 },
   some ((completedParts : ℚ) / (max 1 effectiveTotalParts : ℕ)), true)

/-- The branch bodies of the hook (lines 156-270), up to the shared
emission formula: the further-updated state, the raw `overall` fraction
when the branch emits, and whether the branch sets `_observed_progress`
for a positive percent. -/
def hook_overall (s1 : DLState) (d : HookInput) : DLState × Option ℚ × Bool :=
  match d.status with
  | none => (s1, none, false)
  | some st =>
    if st = "downloading" then
      match per_part_pct d with
      | some per =>
        let completedParts := s1.partsDone.length
        let effectiveTotalParts := max s1.totalPartsEst (completedParts + 1)
        let denom : ℕ := max 1 effectiveTotalParts
        (s1, some (((completedParts : ℚ) + (per : ℚ) / 100) / (denom : ℚ)), true)
      | none => (s1, none, true)
    else if st = "finished" then
      match d.fragIndex, d.fragCount with
      | some fi, some fc =>
        if fc ≠ 0 then
          let frac : ℤ :=
            if 0 < fc then pyInt (min 99 (max 0 ((fi : ℚ) / (fc : ℚ) * 100))) else 0
          let effectiveTotalParts := max s1.totalPartsEst (s1.partsDone.length + 1)
          (s1, some (((s1.partsDone.length : ℚ) + (frac : ℚ) / 100)
                       / (max 1 effectiveTotalParts : ℕ)), false)
        else
          hook_finished_part s1 d
      | _, _ => hook_finished_part s1 d
    else (s1, none, false)

/-- The base percent the hook computes before the monotonicity filter, when
it emits at all. -/
def hook_base (s : DLState) (d : HookInput) : Option ℤ :=
  match (hook_overall (hook_bookkeep s d).1 d).2.1 with
  | some overall => some (clamp99_percent overall)
  | none => none

/-- One call of DownloadWorker.download_hook: bookkeeping, the branch's
`overall`, then the shared tail
`percent = base if (part_changed or parts_est_increased) else max(last, base)`,
state update and emission. -/
def download_hook (s : DLState) (d : HookInput) : DLState × Option ℤ :=
  let bk := hook_bookkeep s d
  let ov := hook_overall bk.1 d
  match ov.2.1 with
  | none => (ov.1, none)
  | some overall =>
    let basePercent := clamp99_percent overall
    let percent := if bk.2.1 || bk.2.2 then basePercent else max ov.1.lastProgress basePercent
    ({ ov.1 with
       lastProgress := percent,
       observedProgress :=
         if ov.2.2 && decide (0 < percent) then true else ov.1.observedProgress },
     some percent)

/-- The emissions of a sequence of hook events. -/
def hook_trace (s : DLState) : List HookInput → List ℤ
  | [] => []
  | d :: ds =>
    let r := download_hook s d
    (match r.2 with
     | some p => [p]
     | none => []) ++ hook_trace r.1 ds

/-- The state after a sequence of hook events. -/
def hook_run_state (s : DLState) : List HookInput → DLState
  | [] => s
  | d :: ds => hook_run_state (download_hook s d).1 ds

/-- The hook state at the start of DownloadWorker.run's download: `__init__`
zeroes everything and run's preflight sets `_total_parts_est` to `est0`. -/
def dl_init_state (est0 : ℕ) : DLState :=
  { lastProgress := 0, currentFilename := none, partsSeen := [], partsDone := [],
    totalPartsEst := est0, observedProgress := false }

/-- Whether this event makes line 150's test fire: a filename that differs
from the current one and was never seen before (a legitimately new part). -/
def new_part_detected (s : DLState) (d : HookInput) : Bool :=
  match d.filename with
  | some f => decide (some f ≠ s.currentFilename) && decide (f ∉ s.partsSeen)
  | none => false

/-- gui.MainWindow.download_finished (lines 2464-2471): the final
completion signal drives the progress display straight to 100. -/
def download_finished_percent : ℤ := 100

/-- The claim's formula for the overall percent of a 'downloading' event:
`clamp(((completedParts + currentPartFraction) / effectiveTotalParts) * 100, 0, 99)`
with `effectiveTotalParts = max(estimatedTotal, completedParts + 1)`,
emitted as the Python-truncated integer. -/
def spec_overall_percent (completedParts estimatedTotalParts : ℕ) (perPartPct : ℤ) : ℤ :=
  let effectiveTotalParts := max estimatedTotalParts (completedParts + 1)
  pyInt (max 0 (min 99
    ((((completedParts : ℚ) + (perPartPct : ℚ) / 100) / (effectiveTotalParts : ℚ)) * 100)))

/-- The code's base percent for a 'downloading' event (lines 197-204),
as a standalone function of the three quantities it reads. -/
def base_percent_downloading (completedParts totalPartsEst : ℕ) (perPartPct : ℤ) : ℤ :=
  let effectiveTotalParts := max totalPartsEst (completedParts + 1)
  let denom : ℕ := max 1 effectiveTotalParts
  clamp99_percent (((completedParts : ℚ) + (perPartPct : ℚ) / 100) / (denom : ℚ))

/-! ## GIF two-phase pipeline (gui.py, ConversionWorker.do_conversion, lines 914-933)

Phase one runs ffmpeg palettegen into a fresh `palette_temp_<uuid>.png`;
phase two applies the palette.  Both run inside `try:` with
`finally: if os.path.exists(palette_file): os.remove(palette_file)` (the
remove itself succeeds in this file-system model).  Whether phase one
actually created the file and how each phase ended are inputs supplied by
the environment. -/

/-- How the second (paletted-encode) phase can end: normal return, the
`RuntimeError` of a nonzero exit, or the `CancelledError` of a stop. -/
inductive GifEncodeResult where
  | success
  | encodeError
  | stopCancelled
deriving DecidableEq, Repr

/-- How the GIF branch as a whole ends. -/
inductive GifOutcome where
  | paletteGenFailed
  | encodeFailed
  | cancelled
  | success
deriving DecidableEq, Repr

/-- The GIF branch: palette generation (`ret != 0` raises), then the
paletted encode, then the `finally` cleanup.  Returns the outcome and
whether the palette temp file exists afterwards. -/
def gif_pipeline (paletteCreated : Bool) (paletteGenRet : ℤ) (encode : GifEncodeResult) :
    GifOutcome × Bool :=
  let paletteExists := paletteCreated
  let result :=
    if paletteGenRet ≠ 0 then GifOutcome.paletteGenFailed
    else
      match encode with
      | GifEncodeResult.success => GifOutcome.success
      | GifEncodeResult.encodeError => GifOutcome.encodeFailed
      | GifEncodeResult.stopCancelled => GifOutcome.cancelled
  (result, if paletteExists then false else paletteExists)

/-! ## GPU encoder selection (gui.py, ConversionWorker.do_conversion, lines 942-1023; converter.py is_video_10bit, lines 285-295)

The ad-hoc mutable argument-list surgery is embedded with explicit list
operations: `if flag in args: idx = args.index(flag); del args[idx:idx+2]`
and `args[idx+1] = value`. -/

/-- Guarded `del args[idx:idx+2]` at the first occurrence of `flag`. -/
def del_flag_pair (flag : String) (args : List String) : List String :=
  match args.findIdx? (fun a => a = flag) with
  | some i => args.take i ++ args.drop (i + 2)
  | none => args

/-- Guarded `args[args.index(flag) + 1] = v`. -/
def set_flag_value (flag v : String) (args : List String) : List String :=
  match args.findIdx? (fun a => a = flag) with
  | some i => args.set (i + 1) v
  | none => args

/-- converter.is_video_10bit: probes the first video stream's pixel format
and reports whether the string contains `"10le"`. -/
def is_video_10bit (pixFmt : String) : Bool :=
  decide ("10le".data <:+: pixFmt.data)

/-- The `extra_args is None` defaults for video targets (lines 942-954). -/
def default_video_args (ext : String) : List String :=
  if ext = ".webm" then
    ["-pix_fmt", "yuv420p", "-r", "60",
     "-c:v", "libvpx-vp9", "-quality", "good", "-cpu-used", "4",
     "-tile-columns", "6", "-frame-parallel", "1",
     "-crf", "30", "-b:v", "0"]
  else
    ["-pix_fmt", "yuv420p", "-r", "60",
     "-c:v", "libx264", "-preset", "fast", "-crf", "23"]

/-- The NVENC CQ tier chosen from the quality slider (lines 990-1001). -/
def nvenc_cq (quality : ℕ) : ℕ :=
  if 95 ≤ quality then 20
  else if 85 ≤ quality then 22
  else if 75 ≤ quality then 24
  else 26

/-- The encoder argument list built by do_conversion for `.mp4`/`.webm`/
`.mkv` targets on the `extra_args is None` path (lines 942-1023):
`quality`, the GPU flag, whether the input file name ends in `.webm`,
the 10-bit probe result, and the optional kbit bitrate target. -/
def do_conversion_video_args (ext : String) (quality : ℕ)
    (useGpu inputIsWebm is10bit : Bool) (bitrateK : Option ℤ) : List String :=
  let base0 := default_video_args ext
  let base1 :=
    if useGpu = false ∧ quality = 100 ∧ ext ≠ ".webm" then
      del_flag_pair "-crf" base0 ++
        (if inputIsWebm then ["-crf", "23", "-preset", "veryslow"]
         else ["-crf", "18", "-preset", "veryslow"])
    else base0
  if useGpu then
    let b1 := del_flag_pair "-pix_fmt" base1
    let b2 := del_flag_pair "-crf" b1
    let b3 := del_flag_pair "-r" b2
    let b4 :=
      if "-c:v" ∈ b3 then set_flag_value "-c:v" "h264_nvenc" b3
      else ["-c:v", "h264_nvenc", "-preset", "fast"] ++ b3
    let b5 := if inputIsWebm then b4 ++ ["-tile-columns", "6", "-frame-parallel", "1"] else b4
    let b6 :=
      match bitrateK with
      | some k =>
        b5 ++ ["-rc", "vbr_hq", "-cq", toString (nvenc_cq quality),
               "-b:v", toString k ++ "k", "-maxrate", toString k ++ "k",
               "-bufsize", toString (k * 2) ++ "k"]
      | none => b5 ++ ["-rc", "vbr_hq", "-cq", toString (nvenc_cq quality)]
    let b7 :=
      if quality = 100 then
        if is10bit then
          (if "-c:v" ∈ b6 then set_flag_value "-c:v" "hevc_nvenc" b6
           else ["-c:v", "hevc_nvenc", "-preset", "fast"] ++ b6) ++
            ["-profile:v", "main10", "-pix_fmt", "p010le"]
        else b6
      else b6
    if "-c:a" ∈ b7 then b7 else b7 ++ ["-c:a", "copy"]
  else base1

/-- The encoder an argument list selects: the value following the first
`"-c:v"`. -/
def selected_codec (args : List String) : Option String :=
  ((args.dropWhile (fun a => a ≠ "-c:v")).drop 1).head?

/-! ## Skip-if-already-in-format (gui.py, MainWindow.start_next_conversion lines 2006-2020 and MainWindow.download_finished lines 2472-2514)

`os.path.splitext` and `str.lower` are embedded below (`str.lower` for the
ASCII file names this tool produces). -/

/-- Python `str.lower` (ASCII). -/
def pyLower (s : String) : String := String.mk (s.toList.map Char.toLower)

/-- Python `str.endswith`. -/
def py_endswith (s suffix : String) : Bool := suffix.toList.isSuffixOf s.toList

/-- Python `str.strip()`: whitespace removed from both ends. -/
def py_strip (s : String) : String :=
  String.mk (((s.toList.dropWhile Char.isWhitespace).reverse.dropWhile Char.isWhitespace).reverse)

/-- Python `str.rfind` restricted to a character predicate: the greatest
index whose character satisfies it, `-1` if none does. -/
def py_rfind (pred : Char → Bool) (cs : List Char) : ℤ :=
  match cs.reverse.findIdx? pred with
  | some j => (cs.length : ℤ) - 1 - j
  | none => -1

/-- The extension part of `os.path.splitext` (ntpath: separators `\\` and
`/`, extension from the last dot, except that leading dots of the base
name do not start an extension). -/
def splitext_ext (p : String) : String :=
  let cs := p.toList
  let sepIdx := max (py_rfind (fun c => c = '\\') cs) (py_rfind (fun c => c = '/') cs)
  let dotIdx := py_rfind (fun c => c = '.') cs
  if sepIdx < dotIdx then
    let nameStart := (sepIdx + 1).toNat
    let dotN := dotIdx.toNat
    if ((cs.drop nameStart).take (dotN - nameStart)).any (fun c => c ≠ '.') then
      String.mk (cs.drop dotN)
    else ""
  else ""

/-- The root part of `os.path.splitext`: the path minus its extension. -/
def splitext_root (p : String) : String :=
  String.mk (p.toList.take (p.toList.length - (splitext_ext p).toList.length))

/-- `desired_format` normalization of start_next_conversion: lower-case,
and a combo header ending in `":"` falls back to `"mp4"`. -/
def normalized_desired_format (selectedFormat : String) : String :=
  let d := pyLower selectedFormat
  if py_endswith d ":" then "mp4" else d

/-- What start_next_conversion does with the current queue entry. -/
inductive ConvertNextAction where
  | republishSkip (outputListItemPath : String)
  | launchConversion (inputFile outputFile : String)
deriving DecidableEq, Repr

/-- MainWindow.start_next_conversion in Convert Only mode, lines 2006-2020:
when the input's extension already equals `"." + desired_format`, the input
path itself is added to the output list, `current_index` is bumped and the
queue recurses; otherwise a ConversionWorker is launched on the pair. -/
def start_next_conversion_action (selectedFormat inputFile outputFile : String)
    (currentIndex : ℕ) : ConvertNextAction × ℕ :=
  let desired := normalized_desired_format selectedFormat
  let inputExt := pyLower (splitext_ext inputFile)
  if inputExt = "." ++ desired then
    (ConvertNextAction.republishSkip inputFile, currentIndex + 1)
  else
    (ConvertNextAction.launchConversion inputFile outputFile, currentIndex)

/-- What download_finished does in Download & Convert mode. -/
inductive DownloadNextAction where
  | republishSkip (outputListItemPath : String)
  | startConversion (inputFile outputFile : String)
deriving DecidableEq, Repr

/-- MainWindow.download_finished in Download & Convert mode, lines
2472-2514: strip the combo text, normalize a `":"` header to `"mp4"`, and
either republish the downloaded file unchanged (extension already matches)
or start a ConversionWorker toward `base + "." + selected_format`. -/
def download_finished_action (selectedFormatRaw downloadedFile : String) : DownloadNextAction :=
  let sf0 := py_strip selectedFormatRaw
  let selectedFormat := if py_endswith sf0 ":" then "mp4" else sf0
  let downloadExt := pyLower (splitext_ext downloadedFile)
  if downloadExt = "." ++ pyLower selectedFormat then
    DownloadNextAction.republishSkip downloadedFile
  else
    DownloadNextAction.startConversion downloadedFile
      (splitext_root downloadedFile ++ "." ++ selectedFormat)

/-! ## Shared clamp lemmas -/

theorem pyInt_clamp_comm (x : ℚ) (hx : 0 ≤ x) :
    pyInt (min 99 (max 0 x)) = max 0 (min 99 (pyInt x)) := by
  rw [max_eq_right hx, pyInt_of_nonneg x hx,
    pyInt_of_nonneg _ (le_min (by norm_num) hx)]
  have h99 : ((99 : ℤ) : ℚ) = (99 : ℚ) := by norm_num
  rw [← h99, floor_min_const 99 x, max_eq_right]
  exact le_min (by norm_num) (Int.floor_nonneg.mpr hx)

theorem clamp99_percent_bounds (x : ℚ) :
    0 ≤ clamp99_percent x ∧ clamp99_percent x ≤ 99 := by
  unfold clamp99_percent
  have hy : (0 : ℚ) ≤ max 0 (min 99 (x * 100)) := le_max_left 0 _
  rw [pyInt_of_nonneg _ hy]
  constructor
  · exact Int.floor_nonneg.mpr hy
  · have : max (0 : ℚ) (min 99 (x * 100)) ≤ 99 :=
      max_le (by norm_num) (min_le_left _ _)
    have := Int.floor_le_floor this
    simpa using this

/-! ## C2 -/

/-- C2: for a running conversion whose stop event wins the race, the
process is killed and waited on (not alive afterwards), the partially
written output is deleted whether or not it existed, and the call ends in
`CancelledError` rather than a return code; the worker classifies that as
Cancelled (stopped by user), never Failed, for every exit code the killed
process might report. -/
theorem C2_cancellation (exitCode : ℤ) (outputExists : Bool) :
    convert_file_finish true exitCode outputExists
      = (ConvertRunResult.cancelled, false, false)
    ∧ worker_terminal_status (convert_file_finish true exitCode outputExists).1
        = TaskTerminal.Cancelled
    ∧ worker_terminal_status (convert_file_finish true exitCode outputExists).1
        ≠ TaskTerminal.Failed := by
  cases outputExists <;>
    simp [convert_file_finish, worker_terminal_status]

/-! ## C3 -/

/-- C3: for every 'downloading' event with a computable per-part fraction,
the hook's base percent equals the spec formula
`clamp(((completedParts + currentPartFraction) / effectiveTotalParts) * 100, 0, 99)`
with `effectiveTotalParts = max(estimatedTotal, completedParts + 1)`, both
as a standalone identity on the three inputs and for the hook itself. -/
theorem C3_overall_percent_formula :
    (∀ (completedParts estimatedTotalParts : ℕ) (perPartPct : ℤ),
       base_percent_downloading completedParts estimatedTotalParts perPartPct
         = spec_overall_percent completedParts estimatedTotalParts perPartPct)
    ∧ (∀ (s : DLState) (d : HookInput), d.status = some "downloading" →
       hook_base s d
         = Option.map
             (fun per => spec_overall_percent (hook_bookkeep s d).1.partsDone.length
               (hook_bookkeep s d).1.totalPartsEst per)
             (per_part_pct d)) := by
  have key : ∀ (c est : ℕ) (per : ℤ),
      base_percent_downloading c est per = spec_overall_percent c est per := by
    intro c est per
    have h1 : max 1 (max est (c + 1)) = max est (c + 1) :=
      max_eq_right (le_max_of_le_right (Nat.succ_le_succ (Nat.zero_le c)))
    simp only [base_percent_downloading, spec_overall_percent, h1]
    rfl
  refine ⟨key, ?_⟩
  intro s d hst
  unfold hook_base hook_overall
  rw [hst]
  cases hper : per_part_pct d with
  | none => simp [hper]
  | some per =>
    simp only [hper, Option.map_some]
    have h := key (hook_bookkeep s d).1.partsDone.length (hook_bookkeep s d).1.totalPartsEst per
    simp only [base_percent_downloading] at h
    simpa using h

/-- C3 witness: the hook identity applied to a concrete downloading event
from the initial two-part state. -/
theorem C3_overall_percent_formula_witness :
    hook_base (dl_init_state 2)
        { status := some "downloading", filename := some "f1", requestedFormatsCount := none,
          totalBytes := some 100, downloadedBytes := some 90, fragIndex := none,
          fragCount := none, percentStrValue := none, elapsed := none, eta := none }
      = Option.map
          (fun per => spec_overall_percent
            (hook_bookkeep (dl_init_state 2)
              { status := some "downloading", filename := some "f1", requestedFormatsCount := none,
                totalBytes := some 100, downloadedBytes := some 90, fragIndex := none,
                fragCount := none, percentStrValue := none, elapsed := none, eta := none }).1.partsDone.length
            (hook_bookkeep (dl_init_state 2)
              { status := some "downloading", filename := some "f1", requestedFormatsCount := none,
                totalBytes := some 100, downloadedBytes := some 90, fragIndex := none,
                fragCount := none, percentStrValue := none, elapsed := none, eta := none }).1.totalPartsEst per)
          (per_part_pct
            { status := some "downloading", filename := some "f1", requestedFormatsCount := none,
              totalBytes := some 100, downloadedBytes := some 90, fragIndex := none,
              fragCount := none, percentStrValue := none, elapsed := none, eta := none }) :=
  C3_overall_percent_formula.2 (dl_init_state 2) _ rfl

/-! ## C5 -/

/-- C5 counterexample: at probe bitrate 1,000,500 b/s and quality 100 the
ceiling is 1,000,500, but the bufsize passed to ffmpeg is 2,000,000 b/s
(the `f"{target_bitrate_k * 2}k"` argument works in whole kilobits), not
twice the ceiling (2,001,000). -/
theorem C5_counterexample :
    target_bitrate 1000500 100 = 1000500
    ∧ bufsize_bits 1000500 100 = 2000000
    ∧ bufsize_bits 1000500 100 ≠ 2 * target_bitrate 1000500 100 := by
  norm_num [bufsize_bits, target_bitrate_k, target_bitrate, pyInt,
    show Int.fdiv 1000500 1000 = 1000 from rfl]

/-- C5 amended: for every quality in [10,100] and known (positive) probe
bitrate B the ceiling is `floor(B*quality/100)` (4,000,000 at 75 percent
gives 3,000,000), and the derived bufsize is twice the ceiling rounded
down to a whole kilobit — exactly twice the ceiling whenever the ceiling
is a multiple of 1000 b/s. -/
theorem C5_bitrate_ceiling_amended (B q : ℕ) (hq1 : 10 ≤ q) (hq2 : q ≤ 100) (hB : 0 < B) :
    target_bitrate B q = Int.floor ((B : ℚ) * q / 100)
    ∧ bufsize_bits B q = 2 * (1000 * Int.fdiv (target_bitrate B q) 1000)
    ∧ ((1000 : ℤ) ∣ target_bitrate B q → bufsize_bits B q = 2 * target_bitrate B q)
    ∧ target_bitrate 4000000 75 = 3000000 := by
  refine ⟨?_, ?_, ?_, ?_⟩
  · exact pyInt_of_nonneg _ (by positivity)
  · unfold bufsize_bits target_bitrate_k
    ring
  · rintro ⟨k, hk⟩
    unfold bufsize_bits target_bitrate_k
    rw [hk, Int.mul_fdiv_cancel_left k (by norm_num)]
    ring
  · norm_num [target_bitrate, pyInt]

/-- C5 witness: the amended statement applied at B = 4,000,000 b/s and
quality 75. -/
theorem C5_bitrate_ceiling_amended_witness :
    target_bitrate 4000000 75 = Int.floor ((4000000 : ℚ) * 75 / 100) :=
  (C5_bitrate_ceiling_amended 4000000 75 (by decide) (by decide) (by decide)).1

/-! ## C6 -/

/-- C6: whenever both trim bounds parse and either `start >= end` or
`end > probed duration`, TrimWorker.run stops at a validation error — one
of the two error emissions that happen before the ffmpeg command is built
and spawned. -/
theorem C6_trim_validation (startParts endParts : List String) (d s e : ℚ)
    (hs : time_to_seconds startParts = some s)
    (he : time_to_seconds endParts = some e)
    (hbad : e ≤ s ∨ d < e) :
    trim_validate startParts endParts (some d) = TrimOutcome.startNotBeforeEnd
    ∨ trim_validate startParts endParts (some d) = TrimOutcome.endOutOfBounds := by
  unfold trim_validate
  rw [hs, he]
  by_cases hse : s ≥ e
  · left
    simp [hse]
  · right
    have hde : d < e := by
      rcases hbad with h | h
      · exact absurd h hse
      · exact h
    simp [hse, hde]

/-- C6 witness: start 00:00:10:00, end 00:00:05:00 against a 60-second
probe is rejected with a validation error. -/
theorem C6_trim_validation_witness :
    trim_validate ["00", "00", "10", "00"] ["00", "00", "05", "00"] (some 60)
        = TrimOutcome.startNotBeforeEnd
    ∨ trim_validate ["00", "00", "10", "00"] ["00", "00", "05", "00"] (some 60)
        = TrimOutcome.endOutOfBounds :=
  C6_trim_validation _ _ 60 10 5
    (by simp [time_to_seconds, show parseNatDigits "00" = some 0 from rfl,
          show parseNatDigits "10" = some 10 from rfl])
    (by simp [time_to_seconds, show parseNatDigits "00" = some 0 from rfl,
          show parseNatDigits "05" = some 5 from rfl])
    (Or.inl (by norm_num))

/-! ## C7 -/

/-- C7: whatever phase one returned, however phase two ended (success,
encode failure, or cancellation), and whether or not the palette file was
actually created, the palette temp file does not exist once the GIF branch
is over. -/
theorem C7_palette_cleanup (paletteCreated : Bool) (paletteGenRet : ℤ)
    (encode : GifEncodeResult) :
    (gif_pipeline paletteCreated paletteGenRet encode).2 = false := by
  cases paletteCreated <;> simp [gif_pipeline]

/-! ## C9 -/

/-- C9: the two time readings disagree on the well-formed input
00:00:01:50 — trim validation reads it as 1.05 s (fourth field divided by
1000) while the `-ss 00:00:01.50` argument handed to ffmpeg denotes 1.5 s
(fourth field as a decimal fraction), so the claimed agreement fails. -/
theorem C9_time_reading_divergence :
    time_to_seconds ["00", "00", "01", "50"] = some (21 / 20)
    ∧ format_time_for_ffmpeg ["00", "00", "01", "50"] = "00:00:01.50"
    ∧ ffmpeg_seek_seconds ["00", "00", "01", "50"] = some (3 / 2)
    ∧ (21 : ℚ) / 20 ≠ 3 / 2 := by
  refine ⟨?_, by decide, ?_, by norm_num⟩
  · simp only [time_to_seconds, show parseNatDigits "00" = some 0 from rfl,
      show parseNatDigits "01" = some 1 from rfl, show parseNatDigits "50" = some 50 from rfl]
    norm_num
  · simp only [ffmpeg_seek_seconds, show parseNatDigits "00" = some 0 from rfl,
      show parseNatDigits "01" = some 1 from rfl, show parseNatDigits "50" = some 50 from rfl,
      show ("50" : String).length = 2 from rfl]
    norm_num

/-! ## C10 -/

/-- C10: in Convert Only mode a queued input whose (lower-cased) extension
already equals "." plus the desired format is not converted: the input
path itself is republished to the output list and the queue index
advances; likewise after a download, a downloaded file already in the
selected format is republished unchanged and no ConversionWorker starts. -/
theorem C10_skip_when_format_matches
    (selectedFormat inputFile outputFile dlFormatRaw downloadedFile : String) (idx : ℕ)
    (h1 : pyLower (splitext_ext inputFile) = "." ++ normalized_desired_format selectedFormat)
    (h2 : pyLower (splitext_ext downloadedFile)
            = "." ++ pyLower (if py_endswith (py_strip dlFormatRaw) ":" then "mp4"
                              else py_strip dlFormatRaw)) :
    start_next_conversion_action selectedFormat inputFile outputFile idx
        = (ConvertNextAction.republishSkip inputFile, idx + 1)
    ∧ download_finished_action dlFormatRaw downloadedFile
        = DownloadNextAction.republishSkip downloadedFile := by
  constructor
  · simp [start_next_conversion_action, h1]
  · simp [download_finished_action, h2]

/-- C10 witness: a queued `video.mp4` with target format mp4 is skipped
and republished, and a downloaded `clip.mp4` with selected format mp4 is
republished. -/
theorem C10_skip_when_format_matches_witness :
    start_next_conversion_action "mp4" "video.mp4" "out.mp4" 3
        = (ConvertNextAction.republishSkip "video.mp4", 4)
    ∧ download_finished_action "mp4" "clip.mp4"
        = DownloadNextAction.republishSkip "clip.mp4" :=
  C10_skip_when_format_matches "mp4" "video.mp4" "out.mp4" "mp4" "clip.mp4" 3
    (by decide) (by decide)

/-! ## C1 -/

theorem TimeToken.seconds_nonneg (t : TimeToken) : 0 ≤ t.seconds := by
  unfold TimeToken.seconds
  have h1 : (0 : ℚ) ≤ (t.hh : ℚ) * 3600 + (t.mm : ℚ) * 60 + (t.ss : ℚ) := by positivity
  have h2 : (0 : ℚ) ≤ (match t.frac with
      | none => (0 : ℚ)
      | some (v, d) => (v : ℚ) / (10 : ℚ) ^ d) := by
    rcases t.frac with _ | ⟨v, d⟩
    · simp
    · positivity
  exact add_nonneg h1 h2

/-- C1 counterexample: with a known 10-second total duration, a run whose
stdout progress stream reports `progress=end` and which then exits with
code 1 emits the value 100 from inside the reader loop — while the process
still runs and with no successful exit ever happening — contradicting
"100 is emitted only after the process has exited successfully". -/
theorem C1_counterexample :
    running_emits (some 10) [ConvLineEvent.fromStdout (StdoutLine.progressKey "end")] = [100]
    ∧ convert_file_emits (some 10)
        [ConvLineEvent.fromStdout (StdoutLine.progressKey "end")] 1 = [100]
    ∧ (1 : ℤ) ≠ 0 := by
  refine ⟨?_, ?_, by decide⟩ <;>
  · simp only [running_emits, convert_file_emits, List.filterMap_cons, List.filterMap_nil,
      line_pct, stdout_pct]
    norm_num

/-- C1 amended: with a known positive total duration, every percent
emitted while the process runs is either `clamp(elapsed/totalDuration*100, 0, 99)`
of the elapsed-time token of its line, or the value 100 triggered by a
stdout `progress=end` line (which the reader emits regardless of the
eventual exit code); with an unknown total duration no running percent is
emitted at all; and after the readers finish, the forced final 100 is
appended exactly when the process exited with code 0. -/
theorem C1_encode_progress_amended (dur : ℚ) (hd : 0 < dur)
    (lines : List ConvLineEvent) (exitCode : ℤ) :
    (∀ e ∈ lines, ∀ p, line_pct (some dur) e = some p →
        (∃ t, e.elapsedSeconds = some t ∧ p = clamp_pct_spec t dur)
        ∨ (e = ConvLineEvent.fromStdout (StdoutLine.progressKey "end") ∧ p = 100))
    ∧ running_emits none lines = []
    ∧ (exitCode = 0 →
        convert_file_emits (some dur) lines exitCode = running_emits (some dur) lines ++ [100])
    ∧ (exitCode ≠ 0 →
        convert_file_emits (some dur) lines exitCode = running_emits (some dur) lines) := by
  have hdur0 : ¬ dur = 0 := ne_of_gt hd
  refine ⟨?_, ?_, ?_, ?_⟩
  · rintro e he p hp
    cases e with
    | fromStderr tok =>
      cases tok with
      | none => simp [line_pct, stderr_pct] at hp
      | some t =>
        left
        refine ⟨t.seconds, rfl, ?_⟩
        simp only [line_pct, stderr_pct, if_neg hdur0, Option.some_inj] at hp
        rw [← hp]
        rfl
    | fromStdout l =>
      cases l with
      | outTimeMicros u =>
        left
        refine ⟨(u : ℚ) / 1000000, rfl, ?_⟩
        simp only [line_pct, stdout_pct, if_neg hdur0, Option.some_inj] at hp
        rw [← hp]
        unfold clamp_pct_spec
        exact pyInt_clamp_comm _ (by positivity)
      | outTime t =>
        left
        refine ⟨t.seconds, rfl, ?_⟩
        simp only [line_pct, stdout_pct, if_neg hdur0, Option.some_inj] at hp
        rw [← hp]
        unfold clamp_pct_spec
        have hts : 0 ≤ t.seconds := TimeToken.seconds_nonneg t
        exact pyInt_clamp_comm _ (by positivity)
      | progressKey w =>
        right
        simp only [line_pct, stdout_pct, if_neg hdur0] at hp
        by_cases hw : w = "end"
        · subst hw
          rw [if_pos rfl] at hp
          exact ⟨rfl, (Option.some_inj.mp hp).symm⟩
        · rw [if_neg hw] at hp
          exact absurd hp (by simp)
      | plain => simp [line_pct, stdout_pct, if_neg hdur0] at hp
  · rw [running_emits, List.filterMap_eq_nil_iff]
    intro e _
    cases e with
    | fromStderr tok => cases tok <;> rfl
    | fromStdout l => rfl
  · intro h0
    simp [convert_file_emits, h0]
  · intro hne
    simp [convert_file_emits, hne]

/-- C1 witness: the amended statement applied at a 10-second duration with
an empty line stream and a successful exit. -/
theorem C1_encode_progress_amended_witness :
    convert_file_emits (some 10) [] 0 = running_emits (some 10) [] ++ [100] :=
  (C1_encode_progress_amended 10 (by decide) [] 0).2.2.1 rfl

/-! ## C8 -/

theorem append_k_ne_flag (s flag : String) (h : flag.data.getLast? ≠ some 'k') :
    (flag = s ++ "k") = False := by
  refine eq_false fun he => h ?_
  rw [he]
  show (s ++ "k").data.getLast? = some 'k'
  rw [String.data_append, show (("k" : String).data) = ['k'] from rfl,
    List.getLast?_append_cons s.data 'k' []]
  rfl

theorem ca_ne_k_str (s : String) : ("-c:a" = s ++ "k") = False :=
  append_k_ne_flag s "-c:a" (by decide)

theorem nvenc_cq_cases (q : ℕ) :
    nvenc_cq q = 20 ∨ nvenc_cq q = 22 ∨ nvenc_cq q = 24 ∨ nvenc_cq q = 26 := by
  unfold nvenc_cq
  split_ifs <;> simp

theorem ca_ne_cq_str (q : ℕ) : ("-c:a" = toString (nvenc_cq q)) = False := by
  rcases nvenc_cq_cases q with h | h | h | h <;> rw [h] <;> exact eq_false (by decide)

theorem selected_codec_cons (c : String) (rest : List String) :
    selected_codec ("-c:v" :: c :: rest) = some c := by
  simp +decide [selected_codec, List.dropWhile_cons]

theorem del_pix_fmt_eval :
    del_flag_pair "-pix_fmt"
      ["-pix_fmt", "yuv420p", "-r", "60", "-c:v", "libx264", "-preset", "fast", "-crf", "23"]
      = ["-r", "60", "-c:v", "libx264", "-preset", "fast", "-crf", "23"] := by decide

theorem del_crf_eval :
    del_flag_pair "-crf" ["-r", "60", "-c:v", "libx264", "-preset", "fast", "-crf", "23"]
      = ["-r", "60", "-c:v", "libx264", "-preset", "fast"] := by decide

theorem del_r_eval :
    del_flag_pair "-r" ["-r", "60", "-c:v", "libx264", "-preset", "fast"]
      = ["-c:v", "libx264", "-preset", "fast"] := by decide

theorem set_h264_eval :
    set_flag_value "-c:v" "h264_nvenc" ["-c:v", "libx264", "-preset", "fast"]
      = ["-c:v", "h264_nvenc", "-preset", "fast"] := by decide

theorem set_flag_value_cons2 (flag v b : String) (rest : List String) :
    set_flag_value flag v (flag :: b :: rest) = flag :: v :: rest := by
  simp +decide [set_flag_value, List.findIdx?_cons]

/-- The 10-bit block of the plan at quality 100: the profile/pixel-format
flags are appended contiguously after the codec swap, before the audio
policy. -/
theorem gpu_args_100_10bit_block (ext : String) (hext : ext = ".mp4" ∨ ext = ".mkv")
    (inputIsWebm : Bool) (bitrateK : Option ℤ) :
    ∃ pre post, do_conversion_video_args ext 100 true inputIsWebm true bitrateK
      = pre ++ ["-profile:v", "main10", "-pix_fmt", "p010le"] ++ post := by
  obtain rfl | rfl := hext <;> cases inputIsWebm <;> rcases bitrateK with _ | k
  · exact ⟨["-c:v", "hevc_nvenc", "-preset", "fast", "-rc", "vbr_hq", "-cq", "20"],
      ["-c:a", "copy"], by decide⟩
  · refine ⟨["-c:v", "hevc_nvenc", "-preset", "fast", "-rc", "vbr_hq", "-cq", "20",
      "-b:v", toString k ++ "k", "-maxrate", toString k ++ "k",
      "-bufsize", toString (k * 2) ++ "k"], ["-c:a", "copy"], ?_⟩
    simp +decide [do_conversion_video_args, default_video_args, nvenc_cq,
      del_pix_fmt_eval, del_crf_eval, del_r_eval, set_h264_eval, set_flag_value_cons2,
      ca_ne_k_str]
  · exact ⟨["-c:v", "hevc_nvenc", "-preset", "fast", "-tile-columns", "6",
      "-frame-parallel", "1", "-rc", "vbr_hq", "-cq", "20"], ["-c:a", "copy"], by decide⟩
  · refine ⟨["-c:v", "hevc_nvenc", "-preset", "fast", "-tile-columns", "6",
      "-frame-parallel", "1", "-rc", "vbr_hq", "-cq", "20",
      "-b:v", toString k ++ "k", "-maxrate", toString k ++ "k",
      "-bufsize", toString (k * 2) ++ "k"], ["-c:a", "copy"], ?_⟩
    simp +decide [do_conversion_video_args, default_video_args, nvenc_cq,
      del_pix_fmt_eval, del_crf_eval, del_r_eval, set_h264_eval, set_flag_value_cons2,
      ca_ne_k_str]
  · exact ⟨["-c:v", "hevc_nvenc", "-preset", "fast", "-rc", "vbr_hq", "-cq", "20"],
      ["-c:a", "copy"], by decide⟩
  · refine ⟨["-c:v", "hevc_nvenc", "-preset", "fast", "-rc", "vbr_hq", "-cq", "20",
      "-b:v", toString k ++ "k", "-maxrate", toString k ++ "k",
      "-bufsize", toString (k * 2) ++ "k"], ["-c:a", "copy"], ?_⟩
    simp +decide [do_conversion_video_args, default_video_args, nvenc_cq,
      del_pix_fmt_eval, del_crf_eval, del_r_eval, set_h264_eval, set_flag_value_cons2,
      ca_ne_k_str]
  · exact ⟨["-c:v", "hevc_nvenc", "-preset", "fast", "-tile-columns", "6",
      "-frame-parallel", "1", "-rc", "vbr_hq", "-cq", "20"], ["-c:a", "copy"], by decide⟩
  · refine ⟨["-c:v", "hevc_nvenc", "-preset", "fast", "-tile-columns", "6",
      "-frame-parallel", "1", "-rc", "vbr_hq", "-cq", "20",
      "-b:v", toString k ++ "k", "-maxrate", toString k ++ "k",
      "-bufsize", toString (k * 2) ++ "k"], ["-c:a", "copy"], ?_⟩
    simp +decide [do_conversion_video_args, default_video_args, nvenc_cq,
      del_pix_fmt_eval, del_crf_eval, del_r_eval, set_h264_eval, set_flag_value_cons2,
      ca_ne_k_str]

/-- C8 counterexample: a GPU conversion to .mp4 of a 10-bit source
(pixel format yuv420p10le) at quality 75 selects h264_nvenc, not the
high-bit-depth hevc_nvenc variant the claim promises for every
GPU-enabled conversion. -/
theorem C8_counterexample :
    is_video_10bit "yuv420p10le" = true
    ∧ selected_codec (do_conversion_video_args ".mp4" 75 true false
        (is_video_10bit "yuv420p10le") none) = some "h264_nvenc"
    ∧ selected_codec (do_conversion_video_args ".mp4" 75 true false
        (is_video_10bit "yuv420p10le") none) ≠ some "hevc_nvenc" := by decide

/-- C8 amended: for a GPU-enabled conversion to a hardware-capable
container (.mp4 or .mkv), the plan selects hevc_nvenc with profile main10
and pixel format p010le exactly when quality is 100 AND the probe reports
a 10-bit source; in every other case (including a 10-bit source at
quality below 100) it selects the standard h264_nvenc variant. -/
theorem C8_gpu_encoder_selection_amended (ext : String) (quality : ℕ)
    (inputIsWebm : Bool) (pixFmt : String) (bitrateK : Option ℤ)
    (hext : ext = ".mp4" ∨ ext = ".mkv") :
    (quality = 100 → is_video_10bit pixFmt = true →
        selected_codec (do_conversion_video_args ext quality true inputIsWebm
            (is_video_10bit pixFmt) bitrateK) = some "hevc_nvenc"
        ∧ ∃ pre post,
            do_conversion_video_args ext quality true inputIsWebm
                (is_video_10bit pixFmt) bitrateK
              = pre ++ ["-profile:v", "main10", "-pix_fmt", "p010le"] ++ post)
    ∧ (¬(quality = 100 ∧ is_video_10bit pixFmt = true) →
        selected_codec (do_conversion_video_args ext quality true inputIsWebm
            (is_video_10bit pixFmt) bitrateK) = some "h264_nvenc") := by
  constructor
  · intro hq hb
    subst hq
    rw [hb]
    refine ⟨?_, gpu_args_100_10bit_block ext hext inputIsWebm bitrateK⟩
    obtain rfl | rfl := hext <;> cases inputIsWebm <;> cases bitrateK <;>
      simp +decide [do_conversion_video_args, default_video_args, nvenc_cq,
        del_pix_fmt_eval, del_crf_eval, del_r_eval, set_h264_eval, set_flag_value_cons2,
        ca_ne_k_str, selected_codec_cons]
  · intro hnot
    by_cases hq : quality = 100
    · subst hq
      have hb : is_video_10bit pixFmt = false := by
        cases h : is_video_10bit pixFmt
        · rfl
        · exact absurd ⟨rfl, h⟩ hnot
      rw [hb]
      obtain rfl | rfl := hext <;> cases inputIsWebm <;> cases bitrateK <;>
        simp +decide [do_conversion_video_args, default_video_args, nvenc_cq,
          del_pix_fmt_eval, del_crf_eval, del_r_eval, set_h264_eval, set_flag_value_cons2,
          ca_ne_k_str, selected_codec_cons]
    · cases hb : is_video_10bit pixFmt <;>
        obtain rfl | rfl := hext <;> cases inputIsWebm <;> cases bitrateK <;>
        simp +decide [do_conversion_video_args, default_video_args,
          del_pix_fmt_eval, del_crf_eval, del_r_eval, set_h264_eval, set_flag_value_cons2,
          ca_ne_cq_str, ca_ne_k_str, selected_codec_cons, hq]

/-- C8 witness: the amended selection rule applied to a 10-bit .mp4 source
at quality 75 with GPU on. -/
theorem C8_gpu_encoder_selection_amended_witness :
    selected_codec (do_conversion_video_args ".mp4" 75 true false
        (is_video_10bit "yuv420p10le") none) = some "h264_nvenc" :=
  (C8_gpu_encoder_selection_amended ".mp4" 75 false "yuv420p10le" none
    (Or.inl rfl)).2 (by decide)

/-! ## C4 -/

theorem hook_bookkeep_lastProgress (s : DLState) (d : HookInput) :
    (hook_bookkeep s d).1.lastProgress = s.lastProgress := rfl

theorem hook_finished_part_lastProgress (s1 : DLState) (d : HookInput) :
    (hook_finished_part s1 d).1.lastProgress = s1.lastProgress := rfl

theorem hook_overall_lastProgress (s1 : DLState) (d : HookInput) :
    (hook_overall s1 d).1.lastProgress = s1.lastProgress := by
  unfold hook_overall
  rcases d.status with _ | st
  · rfl
  · dsimp only
    split
    · split <;> rfl
    · split
      · split
        · split <;> rfl
        · exact hook_finished_part_lastProgress _ _
      · rfl

theorem download_hook_bounds (s : DLState) (d : HookInput)
    (h0 : 0 ≤ s.lastProgress) (h99 : s.lastProgress ≤ 99) :
    (0 ≤ (download_hook s d).1.lastProgress ∧ (download_hook s d).1.lastProgress ≤ 99)
    ∧ ∀ p, (download_hook s d).2 = some p → 0 ≤ p ∧ p ≤ 99 := by
  have hpres : (hook_overall (hook_bookkeep s d).1 d).1.lastProgress = s.lastProgress := by
    rw [hook_overall_lastProgress, hook_bookkeep_lastProgress]
  cases hov : (hook_overall (hook_bookkeep s d).1 d).2.1 with
  | none =>
    simp only [download_hook, hov]
    exact ⟨⟨hpres ▸ h0, hpres ▸ h99⟩, by simp⟩
  | some overall =>
    have hb := clamp99_percent_bounds overall
    simp only [download_hook, hov]
    constructor
    · constructor
      · split
        · exact hb.1
        · exact le_max_of_le_right hb.1
      · split
        · exact hb.2
        · exact max_le (hpres ▸ h99) hb.2
    · intro p hp
      rw [Option.some_inj] at hp
      rw [← hp]
      constructor
      · split
        · exact hb.1
        · exact le_max_of_le_right hb.1
      · split
        · exact hb.2
        · exact max_le (hpres ▸ h99) hb.2

theorem hook_trace_bounds (ds : List HookInput) :
    ∀ s : DLState, 0 ≤ s.lastProgress → s.lastProgress ≤ 99 →
      ∀ p ∈ hook_trace s ds, 0 ≤ p ∧ p ≤ 99 := by
  induction ds with
  | nil => intro s _ _ p hp; simp [hook_trace] at hp
  | cons d ds ih =>
    intro s h0 h99 p hp
    obtain ⟨⟨g0, g99⟩, gemit⟩ := download_hook_bounds s d h0 h99
    rw [hook_trace] at hp
    rcases List.mem_append.mp hp with hmem | hmem
    · rcases hr : (download_hook s d).2 with _ | q
      · rw [hr] at hmem; simp at hmem
      · rw [hr] at hmem
        simp only [List.mem_singleton] at hmem
        subst hmem
        exact gemit p hr
    · exact ih (download_hook s d).1 g0 g99 p hmem

theorem download_hook_no_recalib (s : DLState) (d : HookInput)
    (hpc : (hook_bookkeep s d).2.1 = false) (hei : (hook_bookkeep s d).2.2 = false) :
    (download_hook s d).2 = Option.map (fun b => max s.lastProgress b) (hook_base s d)
    ∧ s.lastProgress ≤ (download_hook s d).1.lastProgress := by
  have hpres : (hook_overall (hook_bookkeep s d).1 d).1.lastProgress = s.lastProgress := by
    rw [hook_overall_lastProgress, hook_bookkeep_lastProgress]
  cases hov : (hook_overall (hook_bookkeep s d).1 d).2.1 with
  | none =>
    simp only [download_hook, hook_base, hov]
    exact ⟨rfl, hpres ▸ le_refl _⟩
  | some overall =>
    simp only [download_hook, hook_base, hov, hpc, hei, Bool.or_self, Bool.false_eq_true,
      if_false, Option.map_some]
    rw [hpres]
    exact ⟨rfl, le_max_left _ _⟩

/-- A 'downloading' hook event carrying only byte counts, as yt-dlp emits
for a plain HTTP part download. -/
def dl_byte_event (f : String) (total downloaded : ℚ) : HookInput :=
  { status := some "downloading", filename := some f, requestedFormatsCount := none,
    totalBytes := some total, downloadedBytes := some downloaded, fragIndex := none,
    fragCount := none, percentStrValue := none, elapsed := none, eta := none }

/-- C4 counterexample: with 2 estimated parts, the hook events
(part a at 90 percent, part b at 80 percent, part a again at 10 percent)
emit 45, 40, 5.  The third emission drops from 40 to 5 although no new
part was detected there (file a was already in the seen set) and the
estimated total did not increase — the downward recalibration is keyed on
the active filename changing, not on a new part or a larger estimate as
the claim states. -/
theorem C4_counterexample :
    hook_trace (dl_init_state 2)
        [dl_byte_event "a" 100 90, dl_byte_event "b" 100 80, dl_byte_event "a" 100 10]
      = [45, 40, 5]
    ∧ new_part_detected
        (hook_run_state (dl_init_state 2) [dl_byte_event "a" 100 90, dl_byte_event "b" 100 80])
        (dl_byte_event "a" 100 10) = false
    ∧ (hook_run_state (dl_init_state 2)
        [dl_byte_event "a" 100 90, dl_byte_event "b" 100 80, dl_byte_event "a" 100 10]).totalPartsEst
      = (hook_run_state (dl_init_state 2)
        [dl_byte_event "a" 100 90, dl_byte_event "b" 100 80]).totalPartsEst
    ∧ (5 : ℤ) < 40 := by
  have h2 : hook_run_state (dl_init_state 2) [dl_byte_event "a" 100 90, dl_byte_event "b" 100 80]
      = { lastProgress := 40, currentFilename := some "b", partsSeen := ["a", "b"],
          partsDone := [], totalPartsEst := 2, observedProgress := true } := by
    simp +decide only [hook_run_state, download_hook, hook_bookkeep, hook_overall, per_part_pct,
      clamp99_percent, pyInt, dl_init_state, dl_byte_event]
    norm_num
  have h3 : hook_run_state (dl_init_state 2)
      [dl_byte_event "a" 100 90, dl_byte_event "b" 100 80, dl_byte_event "a" 100 10]
      = { lastProgress := 5, currentFilename := some "a", partsSeen := ["a", "b"],
          partsDone := [], totalPartsEst := 2, observedProgress := true } := by
    simp +decide only [hook_run_state, download_hook, hook_bookkeep, hook_overall, per_part_pct,
      clamp99_percent, pyInt, dl_init_state, dl_byte_event]
    norm_num
  refine ⟨?_, ?_, ?_, by decide⟩
  · simp +decide only [hook_trace, download_hook, hook_bookkeep, hook_overall, per_part_pct,
      clamp99_percent, pyInt, dl_init_state, dl_byte_event]
    norm_num
  · rw [h2]
    decide
  · rw [h2, h3]

/-- C4 amended: every percent the hook emits from the initial state lies
in [0, 99] (100 never appears before the final completion signal, which
alone drives the display to 100); whenever neither the active filename
changed nor the estimated part total increased, the emitted value is the
max of the previous value and the newly computed base percent, so the
sequence does not decrease there; and with 2 estimated parts, part 1
reaching 100 percent emits exactly 50. -/
theorem C4_download_progress_amended :
    (∀ (est0 : ℕ) (ds : List HookInput) (p : ℤ),
        p ∈ hook_trace (dl_init_state est0) ds → 0 ≤ p ∧ p ≤ 99)
    ∧ (∀ (s : DLState) (d : HookInput),
        (hook_bookkeep s d).2.1 = false → (hook_bookkeep s d).2.2 = false →
        (download_hook s d).2 = Option.map (fun b => max s.lastProgress b) (hook_base s d)
        ∧ s.lastProgress ≤ (download_hook s d).1.lastProgress)
    ∧ hook_trace (dl_init_state 2) [dl_byte_event "part1" 100 100] = [50]
    ∧ download_finished_percent = 100 := by
  refine ⟨?_, download_hook_no_recalib, ?_, rfl⟩
  · intro est0 ds p hp
    exact hook_trace_bounds ds (dl_init_state est0) (by simp [dl_init_state])
      (by simp [dl_init_state]) p hp
  · simp +decide only [hook_trace, download_hook, hook_bookkeep, hook_overall, per_part_pct,
      clamp99_percent, pyInt, dl_init_state, dl_byte_event]
    norm_num

/-- C4 witness: the no-recalibration rule applied to the very first
byte-count event of a two-part download. -/
theorem C4_download_progress_amended_witness :
    (download_hook (dl_init_state 2) (dl_byte_event "part1" 100 100)).2
        = Option.map (fun b => max (dl_init_state 2).lastProgress b)
            (hook_base (dl_init_state 2) (dl_byte_event "part1" 100 100))
    ∧ (dl_init_state 2).lastProgress
        ≤ (download_hook (dl_init_state 2) (dl_byte_event "part1" 100 100)).1.lastProgress :=
  C4_download_progress_amended.2.1 (dl_init_state 2) (dl_byte_event "part1" 100 100)
    (by decide) (by decide)
